import Mathlib

/-!
Shallow embedding of the `ded-pipe` footage-ingest pipeline core:
the data model (`ded_io/models.py`), the naming configuration
(`ded_io/config.py`), the stage executor (`ded_io/stages/base.py`)
and the pipeline orchestrators (`ded_io/pipeline.py`).

Python dictionaries with string keys are modelled as association lists
(`Dict` below) with insert-or-replace assignment; arbitrary payload
values (`Any`) are modelled by the inductive `Val`; the wall clock is
modelled by integer timestamps threaded explicitly; the filesystem is
modelled by a predicate `String → Bool` giving per-path existence.
-/

namespace DedPipe

/-- Opaque model of the Python `Any` values stored in result payloads
and pipeline context maps. -/
inductive Val where
  | str : String → Val
  | int : Int → Val
  | dict : List (String × Val) → Val
deriving Repr

/-- A Python `Dict[str, Any]` as an association list. -/
abbrev Dict := List (String × Val)

/-- Dictionary lookup (`d[k]` / `k in d`): first binding for the key. -/
def dictGet : Dict → String → Option Val
  | [], _ => none
  | (k', v') :: rest, k => if k' = k then some v' else dictGet rest k

/-- Dictionary assignment `d[k] = v`: replace in place if the key is
present, otherwise append at the end (Python dict semantics). -/
def dictSet : Dict → String → Val → Dict
  | [], k, v => [(k, v)]
  | (k', v') :: rest, k, v =>
      if k' = k then (k, v) :: rest else (k', v') :: dictSet rest k v

/-- Model of `str.zfill` / `f"{n:0Nd}"`: left-pad with zeros to width `w`,
keeping a leading minus sign in front of the padding. -/
def zfill (s : String) (w : Nat) : String :=
  if w ≤ s.length then s
  else
    match s.data with
    | '-' :: rest => String.mk ('-' :: (List.replicate (w - s.length) '0' ++ rest))
    | _ => String.mk (List.replicate (w - s.length) '0' ++ s.data)

namespace PipelineConfig

/-- Model of `PipelineConfig.DIGITAL_START_FRAME` -/
def DIGITAL_START_FRAME : Int := 1001

/-- Model of `PipelineConfig.HEAD_HANDLE_FRAMES` -/
def HEAD_HANDLE_FRAMES : Int := 8

/-- Model of `PipelineConfig.TAIL_HANDLE_FRAMES` -/
def TAIL_HANDLE_FRAMES : Int := 8

/-- Model of `PipelineConfig.SEQUENCE_START_FRAME = DIGITAL_START_FRAME - HEAD_HANDLE_FRAMES` -/
def SEQUENCE_START_FRAME : Int := DIGITAL_START_FRAME - HEAD_HANDLE_FRAMES

/-- Model of `PipelineConfig.VERSION_PADDING` -/
def VERSION_PADDING : Nat := 3

/-- Model of `PipelineConfig.FRAME_PADDING` -/
def FRAME_PADDING : Nat := 4

/-- Model of `PipelineConfig.format_shot_name(sequence, shot)`: concatenation. -/
def format_shot_name (sequence shot : String) : String :=
  sequence ++ shot

/-- Model of `PipelineConfig.format_version(version)`: `f"v{version:03d}"`. -/
def format_version (version : Int) : String :=
  "v" ++ zfill (toString version) VERSION_PADDING

/-- Model of `PipelineConfig.format_frame(frame)`: `f"{frame:04d}"`. -/
def format_frame (frame : Int) : String :=
  zfill (toString frame) FRAME_PADDING

/-- Model of `PipelineConfig.get_version_container_name`. -/
def get_version_container_name (shot_name task element : String) (version : Int) : String :=
  shot_name ++ "_" ++ task ++ "_" ++ element ++ "_" ++ format_version version

/-- Model of `PipelineConfig.get_base_filename`. -/
def get_base_filename (shot_name task element : String) (version : Int)
    (rep colorspace : String) : String :=
  shot_name ++ "_" ++ task ++ "_" ++ element ++ "_" ++ format_version version
    ++ "_" ++ rep ++ "_" ++ colorspace

/-- Model of `PipelineConfig.get_sequence_filename`. -/
def get_sequence_filename (shot_name task element : String) (version : Int)
    (rep colorspace : String) (frame : Int) (extension : String) : String :=
  get_base_filename shot_name task element version rep colorspace
    ++ "." ++ format_frame frame ++ "." ++ extension

/-- Model of `PipelineConfig.get_movie_filename`. -/
def get_movie_filename (shot_name task element : String) (version : Int)
    (rep colorspace extension : String) : String :=
  get_base_filename shot_name task element version rep colorspace
    ++ "." ++ extension

end PipelineConfig

/-- Model of `EditorialCutInfo` (models.py): editorial cut information for a shot.
`source_file` is a path modelled as a string, `source_fps` a rational. -/
structure EditorialCutInfo where
  sequence : String
  shot : String
  source_file : String
  in_point : Int
  out_point : Int
  source_timecode_start : Option String
  source_fps : ℚ
  metadata : Dict
deriving Repr

/-- Model of `EditorialCutInfo.duration_frames = out_point - in_point + 1`. -/
def EditorialCutInfo.duration_frames (e : EditorialCutInfo) : Int :=
  e.out_point - e.in_point + 1

/-- Model of `ShotInfo` (models.py): complete shot information.  Paths are
modelled as strings, `created_at` is omitted (wall-clock metadata with
no consumer in the orchestrator). -/
structure ShotInfo where
  project : String
  sequence : String
  shot : String
  editorial_info : EditorialCutInfo
  task_type : String
  element_name : String
  version : Int
  representation : String
  first_frame : Int
  last_frame : Option Int
  total_frames : Option Int
  source_raw_path : Option String
  output_sequence_path : Option String
  output_proxy_path : Option String
  version_container_path : Option String
  processing_status : String
deriving Repr

/-- Model of `ShotInfo.__post_init__`: construct a `ShotInfo`, and when
`last_frame` is `None` derive `total_frames` from the editorial
duration plus the configured handles and `last_frame` from
`first_frame + total_frames - 1`. -/
def mkShotInfo (project sequence shot : String) (editorial_info : EditorialCutInfo)
    (task_type element_name : String) (version : Int) (representation : String)
    (first_frame : Int) (last_frame total_frames : Option Int)
    (processing_status : String) : ShotInfo :=
  let base : ShotInfo :=
    { project := project, sequence := sequence, shot := shot
      editorial_info := editorial_info, task_type := task_type
      element_name := element_name, version := version
      representation := representation, first_frame := first_frame
      last_frame := last_frame, total_frames := total_frames
      source_raw_path := none, output_sequence_path := none
      output_proxy_path := none, version_container_path := none
      processing_status := processing_status }
  match last_frame with
  | some _ => base
  | none =>
      let duration := editorial_info.duration_frames
      let handles := PipelineConfig.HEAD_HANDLE_FRAMES + PipelineConfig.TAIL_HANDLE_FRAMES
      let total := duration + handles
      { base with total_frames := some total, last_frame := some (first_frame + total - 1) }

/-- Model of `ProcessingResult` (models.py): result of one stage invocation.
`duration_seconds : Optional[float]` is modelled over integer clock
ticks. -/
structure ProcessingResult where
  stage_name : String
  success : Bool
  message : String
  data : Dict
  errors : List String
  warnings : List String
  duration_seconds : Option Int
deriving Repr

/-- Model of `ProcessingResult.add_error`: append the error and force
`success = False`. -/
def ProcessingResult.add_error (r : ProcessingResult) (error : String) : ProcessingResult :=
  { r with errors := r.errors ++ [error], success := false }

/-- Model of `ProcessingResult.add_warning`: append the warning. -/
def ProcessingResult.add_warning (r : ProcessingResult) (warning : String) : ProcessingResult :=
  { r with warnings := r.warnings ++ [warning] }

/-- Model of `ImageSequence` (models.py). -/
structure ImageSequence where
  directory : String
  base_name : String
  extension : String
  first_frame : Int
  last_frame : Int
  frame_padding : Nat
deriving Repr

/-- Model of `ImageSequence.total_frames = last_frame - first_frame + 1`. -/
def ImageSequence.total_frames (s : ImageSequence) : Int :=
  s.last_frame - s.first_frame + 1

/-- Model of `ImageSequence.get_frame_path`: `directory / f"{base}.{frame_str}.{ext}"`
with `frame_str = str(frame).zfill(frame_padding)`. -/
def ImageSequence.get_frame_path (s : ImageSequence) (frame : Int) : String :=
  s.directory ++ "/" ++ s.base_name ++ "." ++ zfill (toString frame) s.frame_padding
    ++ "." ++ s.extension

/-- The block of `n` consecutive integers starting at `a`. -/
def frameRangeAux (a : Int) : Nat → List Int
  | 0 => []
  | n + 1 => a :: frameRangeAux (a + 1) n

/-- Model of `range(first_frame, last_frame + 1)` over integers. -/
def frameRange (a b : Int) : List Int :=
  frameRangeAux a (b + 1 - a).toNat

/-- Model of `ImageSequence.verify_exists`: loop over the declared frame range
collecting the frames whose derived path exists; the filesystem is the
predicate `fs`. -/
def ImageSequence.verify_exists (s : ImageSequence) (fs : String → Bool) : List Int :=
  (frameRange s.first_frame s.last_frame).foldl
    (fun acc frame => if fs (s.get_frame_path frame) then acc ++ [frame] else acc) []

/-- Outcome of a stage's `process(shot_info, result, **kwargs)` body:
the shot and result as mutated by the body, plus `exn = some e` when the
body raised an exception whose text is `e` (the mutations made before
the raise persist, as they do for the in-place Python mutation). -/
structure StageOutcome where
  shot : ShotInfo
  result : ProcessingResult
  exn : Option String
deriving Repr

/-- Model of `PipelineStage` (stages/base.py): a name plus the stage-specific
`process` body.  The keyword context `**kwargs` is the `Dict` argument. -/
structure Stage where
  name : String
  process : ShotInfo → ProcessingResult → Dict → StageOutcome

/-- The fresh result `execute` constructs before calling `process`:
`ProcessingResult(stage_name=name, success=True, message="")`. -/
def initResult (name : String) : ProcessingResult :=
  { stage_name := name, success := true, message := ""
    data := [], errors := [], warnings := [], duration_seconds := none }

/-- Model of `PipelineStage.execute` (stages/base.py lines 48-99): wrap `process`
with a fresh result, the exception boundary, message synthesis and
duration capture.  `t0` and `t1` are the `time.time()` readings taken at
entry and in the `finally` block. -/
def Stage.executeAt (st : Stage) (shot_info : ShotInfo) (ctx : Dict)
    (t0 t1 : Int) : ShotInfo × ProcessingResult :=
  let o := st.process shot_info (initResult st.name) ctx
  let r :=
    match o.exn with
    | none =>
        if o.result.success then
          { o.result with message := "Stage " ++ st.name ++ " completed successfully" }
        else
          { o.result with message := "Stage " ++ st.name ++ " completed with errors" }
    | some e =>
        let error_msg := "Stage " ++ st.name ++ " failed with exception: " ++ e
        let r1 := { o.result with success := false }
        let r2 := r1.add_error error_msg
        { r2 with message := error_msg }
  (o.shot, { r with duration_seconds := some (t1 - t0) })

/-- Model of `Pipeline` (pipeline.py): a name and an ordered stage list. -/
structure Pipeline where
  name : String
  stages : List Stage

/-- Execution summary (`Pipeline._build_summary`); `shot_info.to_dict()`
is modelled by the shot record itself. -/
structure Summary where
  pipeline_name : String
  shot_info : ShotInfo
  duration_seconds : Int
  total_stages : Nat
  successful_stages : Nat
  failed_stages : Nat
  overall_success : Bool
  stage_results : List ProcessingResult
deriving Repr

/-- Model of `Pipeline._build_summary` (pipeline.py lines 141-165), shared with
`ConditionalPipeline` which inherits it: `total_stages` is the stage
count of the pipeline, `failed_stages = total_stages - successful_stages`. -/
def buildSummary (name : String) (numStages : Nat) (shot_info : ShotInfo)
    (duration : Int) (results : List ProcessingResult) : Summary :=
  let successful := (results.filter (fun r => r.success)).length
  { pipeline_name := name, shot_info := shot_info, duration_seconds := duration
    total_stages := numStages, successful_stages := successful
    failed_stages := numStages - successful
    overall_success := shot_info.processing_status == "complete"
    stage_results := results }

/-- Loop state of `Pipeline.execute`: the shot, the accumulated
`pipeline_data` context, the result list, and whether the loop has
`break`-ed. -/
structure ExecState where
  shot : ShotInfo
  ctx : Dict
  results : List ProcessingResult
  stopped : Bool

/-- The context-accumulation block of `Pipeline.execute` (lines
100-110): when the result carries data, remap `dpx_sequence` /
`output_sequence` to `input_sequence`, propagate `proxy_file`, and store
the whole payload under `{stage.name}_output`. -/
def updatePipelineData (ctx : Dict) (stageName : String) (data : Dict) : Dict :=
  if data.isEmpty then ctx
  else
    let c1 := match dictGet data "dpx_sequence" with
      | some v => dictSet ctx "input_sequence" v
      | none => ctx
    let c2 := match dictGet data "output_sequence" with
      | some v => dictSet c1 "input_sequence" v
      | none => c1
    let c3 := match dictGet data "proxy_file" with
      | some v => dictSet c2 "proxy_file" v
      | none => c2
    dictSet c3 (stageName ++ "_output") (Val.dict data)

/-- One iteration of the `Pipeline.execute` stage loop (lines 93-124):
run the stage, append its result, accumulate context, and on failure set
the shot status to `"error"` and stop when `stop_on_error`. -/
def pipelineStep (stop_on_error : Bool) (t : Int × Int) (st : Stage)
    (s : ExecState) : ExecState :=
  if s.stopped then s
  else
    let out := st.executeAt s.shot s.ctx t.1 t.2
    let shot1 := out.1
    let result := out.2
    let results1 := s.results ++ [result]
    let ctx1 := updatePipelineData s.ctx st.name result.data
    if result.success then
      { shot := shot1, ctx := ctx1, results := results1, stopped := false }
    else
      { shot := { shot1 with processing_status := "error" }
        ctx := ctx1, results := results1, stopped := stop_on_error }

/-- The `for` loop of `Pipeline.execute`; `times i` gives the two
`time.time()` readings of the `i`-th stage's executor. -/
def runStages (stop_on_error : Bool) (times : Nat → Int × Int) :
    List Stage → Nat → ExecState → ExecState
  | [], _, s => s
  | st :: rest, i, s =>
      runStages stop_on_error times rest (i + 1) (pipelineStep stop_on_error (times i) st s)

/-- Model of `Pipeline.execute` (pipeline.py lines 65-139): mark the shot
processing, run the stage loop threading the context, finalize the
status, and build the summary.  Returns the summary together with the
final shot and the result list (which Python exposes by mutation and as
`self.results`). -/
def Pipeline.execute (p : Pipeline) (shot_info : ShotInfo) (stop_on_error : Bool)
    (kwargs : Dict) (times : Nat → Int × Int) (t0 t1 : Int) :
    Summary × ShotInfo × List ProcessingResult :=
  let shot0 := { shot_info with processing_status := "processing" }
  let s := runStages stop_on_error times p.stages 0
    { shot := shot0, ctx := kwargs, results := [], stopped := false }
  let shotF :=
    if s.shot.processing_status ≠ "error" then
      { s.shot with processing_status := "complete" }
    else s.shot
  (buildSummary p.name p.stages.length shotF (t1 - t0) s.results, shotF, s.results)

/-- Model of `ConditionalPipeline` (pipeline.py lines 233-259): a pipeline plus
per-stage-name predicates over `(shot_info, results_so_far)`. -/
structure ConditionalPipeline where
  name : String
  stages : List Stage
  stage_conditions : String → Option (ShotInfo → List ProcessingResult → Bool)

/-- Loop state of `ConditionalPipeline.execute`: no context map is
threaded — every executed stage receives the initial `kwargs`. -/
structure CondState where
  shot : ShotInfo
  results : List ProcessingResult
  stopped : Bool

/-- The synthetic result recorded for a skipped stage (lines 282-286). -/
def skippedResult (stageName : String) : ProcessingResult :=
  { stage_name := stageName, success := true
    message := "Stage skipped (condition not met)"
    data := [], errors := [], warnings := [], duration_seconds := none }

/-- One iteration of the `ConditionalPipeline.execute` loop (lines
269-298): evaluate any registered predicate; on `false` record the
synthetic skipped result, otherwise run the stage with the initial
`kwargs` and handle failure as in `Pipeline`. -/
def condStep (cp : ConditionalPipeline) (kwargs : Dict) (stop_on_error : Bool)
    (t : Int × Int) (st : Stage) (s : CondState) : CondState :=
  if s.stopped then s
  else
    let runIt : CondState :=
      let out := st.executeAt s.shot kwargs t.1 t.2
      let shot1 := out.1
      let result := out.2
      let results1 := s.results ++ [result]
      if result.success then
        { shot := shot1, results := results1, stopped := s.stopped }
      else
        { shot := { shot1 with processing_status := "error" }
          results := results1, stopped := stop_on_error }
    match cp.stage_conditions st.name with
    | some condition_fn =>
        if condition_fn s.shot s.results then runIt
        else { s with results := s.results ++ [skippedResult st.name] }
    | none => runIt

/-- The `for` loop of `ConditionalPipeline.execute`. -/
def runCondStages (cp : ConditionalPipeline) (kwargs : Dict) (stop_on_error : Bool)
    (times : Nat → Int × Int) : List Stage → Nat → CondState → CondState
  | [], _, s => s
  | st :: rest, i, s =>
      runCondStages cp kwargs stop_on_error times rest (i + 1)
        (condStep cp kwargs stop_on_error (times i) st s)

/-- Model of `ConditionalPipeline.execute` (pipeline.py lines 261-306). -/
def ConditionalPipeline.execute (cp : ConditionalPipeline) (shot_info : ShotInfo)
    (stop_on_error : Bool) (kwargs : Dict) (times : Nat → Int × Int) (t0 t1 : Int) :
    Summary × ShotInfo × List ProcessingResult :=
  let shot0 := { shot_info with processing_status := "processing" }
  let s := runCondStages cp kwargs stop_on_error times cp.stages 0
    { shot := shot0, results := [], stopped := false }
  let shotF :=
    if s.shot.processing_status ≠ "error" then
      { s.shot with processing_status := "complete" }
    else s.shot
  (buildSummary cp.name cp.stages.length shotF (t1 - t0) s.results, shotF, s.results)

/-! ### Concrete fixtures used by closed theorems and witnesses -/

/-- A concrete editorial cut (48 frames, in-point 101, out-point 148). -/
def sampleCut : EditorialCutInfo :=
  { sequence := "sht", shot := "100", source_file := "/mnt/raw/a.mxf"
    in_point := 101, out_point := 148, source_timecode_start := none
    source_fps := 24, metadata := [] }

/-- A concrete shot built through `mkShotInfo` with `last_frame = None`. -/
def sampleShot : ShotInfo :=
  mkShotInfo "proj" "sht" "100" sampleCut "pla" "rawPlate" 1 "main" 993 none none "pending"

/-! ### Theorems -/

/-- C6: `format_version 1 = "v001"`, `format_frame 993 = "0993"`, the
sequence filename for sht100/pla/rawPlate/v1/main/ACEScg frame 993 exr
is exactly `sht100_pla_rawPlate_v001_main_ACEScg.0993.exr`, and every
naming function is deterministic: identical arguments give identical
strings. -/
theorem naming_grammar_and_determinism :
    PipelineConfig.format_version 1 = "v001" ∧
    PipelineConfig.format_frame 993 = "0993" ∧
    PipelineConfig.get_sequence_filename "sht100" "pla" "rawPlate" 1 "main" "ACEScg" 993 "exr"
      = "sht100_pla_rawPlate_v001_main_ACEScg.0993.exr" ∧
    (∀ v : Int, PipelineConfig.format_version v = PipelineConfig.format_version v) ∧
    (∀ f : Int, PipelineConfig.format_frame f = PipelineConfig.format_frame f) ∧
    (∀ (sn tk el : String) (v : Int) (rep cs : String) (fr : Int) (ext : String),
      PipelineConfig.get_sequence_filename sn tk el v rep cs fr ext
        = PipelineConfig.get_sequence_filename sn tk el v rep cs fr ext) ∧
    (∀ (sn tk el : String) (v : Int) (rep cs ext : String),
      PipelineConfig.get_movie_filename sn tk el v rep cs ext
        = PipelineConfig.get_movie_filename sn tk el v rep cs ext) := by
  refine ⟨by decide, by decide, by decide, fun _ => rfl, fun _ => rfl,
    fun _ _ _ _ _ _ _ _ => rfl, fun _ _ _ _ _ _ _ => rfl⟩

/-- C7: a shot constructed from an editorial cut with `last_frame` left
`None` satisfies `total_frames = (out - in + 1) + head + tail` and
`last_frame = first_frame + total_frames - 1` (equivalently
`last_frame - first_frame + 1 = total_frames`). -/
theorem shot_frame_range_invariant (project sequence shot : String)
    (e : EditorialCutInfo) (task element : String) (version : Int) (rep : String)
    (first_frame : Int) (h : e.in_point ≤ e.out_point) :
    let s := mkShotInfo project sequence shot e task element version rep
      first_frame none none "pending"
    s.total_frames = some ((e.out_point - e.in_point + 1)
        + PipelineConfig.HEAD_HANDLE_FRAMES + PipelineConfig.TAIL_HANDLE_FRAMES) ∧
    s.last_frame = some (s.first_frame + ((e.out_point - e.in_point + 1)
        + PipelineConfig.HEAD_HANDLE_FRAMES + PipelineConfig.TAIL_HANDLE_FRAMES) - 1) ∧
    (∀ lf tf : Int, s.last_frame = some lf → s.total_frames = some tf →
      lf - s.first_frame + 1 = tf) := by
  dsimp only [mkShotInfo, EditorialCutInfo.duration_frames,
    PipelineConfig.HEAD_HANDLE_FRAMES, PipelineConfig.TAIL_HANDLE_FRAMES]
  refine ⟨?_, ?_, ?_⟩
  · simp only [Option.some.injEq]; ring
  · simp only [Option.some.injEq]; ring
  · intro lf tf hlf htf
    simp only [Option.some.injEq] at hlf htf
    omega

/-- Witness for `shot_frame_range_invariant` at the concrete sample cut. -/
theorem shot_frame_range_invariant_witness :
    let s := mkShotInfo "proj" "sht" "100" sampleCut "pla" "rawPlate" 1 "main"
      993 none none "pending"
    s.total_frames = some ((sampleCut.out_point - sampleCut.in_point + 1)
        + PipelineConfig.HEAD_HANDLE_FRAMES + PipelineConfig.TAIL_HANDLE_FRAMES) ∧
    s.last_frame = some (s.first_frame + ((sampleCut.out_point - sampleCut.in_point + 1)
        + PipelineConfig.HEAD_HANDLE_FRAMES + PipelineConfig.TAIL_HANDLE_FRAMES) - 1) ∧
    (∀ lf tf : Int, s.last_frame = some lf → s.total_frames = some tf →
      lf - s.first_frame + 1 = tf) :=
  shot_frame_range_invariant "proj" "sht" "100" sampleCut "pla" "rawPlate" 1 "main"
    993 (by decide)

/-- C8: `add_error` appends the error and forces `success = false`;
`add_warning` appends the warning and leaves `success` unchanged. -/
theorem add_error_forces_failure_add_warning_preserves
    (r : ProcessingResult) (e w : String) :
    (r.add_error e).errors = r.errors ++ [e] ∧
    (r.add_error e).success = false ∧
    (r.add_warning w).warnings = r.warnings ++ [w] ∧
    (r.add_warning w).success = r.success :=
  ⟨rfl, rfl, rfl, rfl⟩

/-- A stage whose process body succeeds without touching anything. -/
def okStage (nm : String) : Stage :=
  { name := nm, process := fun shot r _ => { shot := shot, result := r, exn := none } }

/-- A stage whose process body records an error (`add_error`), making
the result fail without raising. -/
def failStage (nm : String) : Stage :=
  { name := nm
    process := fun shot r _ => { shot := shot, result := r.add_error "boom", exn := none } }

/-- A stage whose process body raises an exception with text `msg`. -/
def raiseStage (nm msg : String) : Stage :=
  { name := nm, process := fun shot r _ => { shot := shot, result := r, exn := some msg } }

/-- A stage whose process body stores `(key, v)` in the result payload. -/
def producerStage (nm key : String) (v : Val) : Stage :=
  { name := nm
    process := fun shot r _ => { shot := shot, result := { r with data := [(key, v)] }, exn := none } }

/-- A stage whose process body copies the keyword context it received
into the result payload — a stage whose observable behaviour depends on
the propagated context. -/
def probeStage (nm : String) : Stage :=
  { name := nm
    process := fun shot r ctx => { shot := shot, result := { r with data := ctx }, exn := none } }

/-- C1: `PipelineStage.execute` always returns a result carrying
`duration_seconds = t1 - t0 ≥ 0`, and when the stage's process body
raises an exception `e`, the returned result has `success = false`, a
non-empty error list, and a message containing the exception text —
the exception never escapes (`executeAt` is a total function). -/
theorem stage_execute_exception_boundary (st : Stage) (shot : ShotInfo)
    (ctx : Dict) (t0 t1 : Int) (h : t0 ≤ t1) :
    ((st.executeAt shot ctx t0 t1).2.duration_seconds = some (t1 - t0) ∧
      ∀ d : Int, (st.executeAt shot ctx t0 t1).2.duration_seconds = some d → 0 ≤ d) ∧
    (∀ e : String, (st.process shot (initResult st.name) ctx).exn = some e →
      (st.executeAt shot ctx t0 t1).2.success = false ∧
      (st.executeAt shot ctx t0 t1).2.errors ≠ [] ∧
      ∃ pre post : String, (st.executeAt shot ctx t0 t1).2.message = pre ++ e ++ post) := by
  unfold Stage.executeAt
  refine ⟨⟨rfl, ?_⟩, ?_⟩
  · intro d hd
    simp only [Option.some.injEq] at hd
    omega
  · intro e he
    simp only [he]
    refine ⟨rfl, ?_, ?_⟩
    · simp [ProcessingResult.add_error]
    · exact ⟨"Stage " ++ st.name ++ " failed with exception: ", "", by simp⟩

/-- Witness for `stage_execute_exception_boundary`: a concrete raising
stage at timestamps 0 and 5. -/
theorem stage_execute_exception_boundary_witness :
    (((raiseStage "S" "boom").executeAt sampleShot [] 0 5).2.duration_seconds = some 5 ∧
      ∀ d : Int, (((raiseStage "S" "boom").executeAt sampleShot [] 0 5).2.duration_seconds
        = some d) → 0 ≤ d) ∧
    (((raiseStage "S" "boom").executeAt sampleShot [] 0 5).2.success = false ∧
      (((raiseStage "S" "boom").executeAt sampleShot [] 0 5).2.errors ≠ []) ∧
      ∃ pre post : String,
        ((raiseStage "S" "boom").executeAt sampleShot [] 0 5).2.message
          = pre ++ "boom" ++ post) := by
  have h := stage_execute_exception_boundary (raiseStage "S" "boom") sampleShot [] 0 5
    (by decide)
  exact ⟨h.1, h.2 "boom" rfl⟩

/-- C2: on stages [A ok, B fails, C ok], `Pipeline.execute` with
`stop_on_error = true` runs only A and B (C's result is absent) and ends
with shot status `"error"`; with `stop_on_error = false` all three run
and the summary reports 2 successful and 1 failed stage. -/
theorem pipeline_stop_on_error_scenario :
    (((Pipeline.mk "p" [okStage "A", failStage "B", okStage "C"]).execute
        sampleShot true [] (fun _ => (0, 0)) 0 0).2.2.map (fun r => r.stage_name)
      = ["A", "B"]) ∧
    ((Pipeline.mk "p" [okStage "A", failStage "B", okStage "C"]).execute
        sampleShot true [] (fun _ => (0, 0)) 0 0).2.2.length = 2 ∧
    ((Pipeline.mk "p" [okStage "A", failStage "B", okStage "C"]).execute
        sampleShot true [] (fun _ => (0, 0)) 0 0).2.1.processing_status = "error" ∧
    ((Pipeline.mk "p" [okStage "A", failStage "B", okStage "C"]).execute
        sampleShot false [] (fun _ => (0, 0)) 0 0).2.2.length = 3 ∧
    ((Pipeline.mk "p" [okStage "A", failStage "B", okStage "C"]).execute
        sampleShot false [] (fun _ => (0, 0)) 0 0).1.successful_stages = 2 ∧
    ((Pipeline.mk "p" [okStage "A", failStage "B", okStage "C"]).execute
        sampleShot false [] (fun _ => (0, 0)) 0 0).1.failed_stages = 1 ∧
    ((Pipeline.mk "p" [okStage "A", failStage "B", okStage "C"]).execute
        sampleShot false [] (fun _ => (0, 0)) 0 0).2.1.processing_status = "error" := by
  refine ⟨?_, ?_, ?_, ?_, ?_, ?_, ?_⟩ <;> rfl

/-- Looking up the key just assigned returns the assigned value. -/
theorem dictGet_set_self (m : Dict) (k : String) (v : Val) :
    dictGet (dictSet m k v) k = some v := by
  induction m with
  | nil => simp [dictSet, dictGet]
  | cons p rest ih =>
      obtain ⟨a, b⟩ := p
      by_cases h : a = k
      · simp [dictSet, h, dictGet]
      · simp [dictSet, h, dictGet, ih]

/-- Assignment leaves every other key's binding unchanged. -/
theorem dictGet_set_other (m : Dict) (k k' : String) (v : Val) (h : k' ≠ k) :
    dictGet (dictSet m k v) k' = dictGet m k' := by
  induction m with
  | nil => simp [dictSet, dictGet, Ne.symm h]
  | cons p rest ih =>
      obtain ⟨a, b⟩ := p
      by_cases hak : a = k
      · subst hak
        simp [dictSet, dictGet, Ne.symm h]
      · by_cases hak' : a = k'
        · simp [dictSet, dictGet, hak, hak', h, ih]
        · simp [dictSet, dictGet, hak, hak', h, ih]

/-- No stage-derived output key collides with the canonical
`input_sequence` context key. -/
theorem stage_output_key_ne_input (stageName : String) :
    stageName ++ "_output" ≠ "input_sequence" := by
  intro h
  have hd : stageName.data ++ "_output".data = "input_sequence".data := by
    rw [← String.data_append, h]
  have hlen : stageName.data.length = 7 := by
    have hl := congrArg List.length hd
    rw [List.length_append] at hl
    have e1 : ("_output" : String).data.length = 7 := by decide
    have e2 : ("input_sequence" : String).data.length = 14 := by decide
    rw [e1, e2] at hl
    omega
  have h2 := congrArg (List.drop stageName.data.length) hd
  rw [List.drop_left] at h2
  rw [hlen] at h2
  exact absurd h2 (by decide)

/-- No stage-derived output key collides with the `proxy_file` key. -/
theorem stage_output_key_ne_proxy (stageName : String) :
    stageName ++ "_output" ≠ "proxy_file" := by
  intro h
  have hd : stageName.data ++ "_output".data = "proxy_file".data := by
    rw [← String.data_append, h]
  have hlen : stageName.data.length = 3 := by
    have hl := congrArg List.length hd
    rw [List.length_append] at hl
    have e1 : ("_output" : String).data.length = 7 := by decide
    have e2 : ("proxy_file" : String).data.length = 10 := by decide
    rw [e1, e2] at hl
    omega
  have h2 := congrArg (List.drop stageName.data.length) hd
  rw [List.drop_left] at h2
  rw [hlen] at h2
  exact absurd h2 (by decide)

/-- C4: the context-accumulation contract of `Pipeline.execute`.  For a
non-empty result payload: `input_sequence` receives the payload's
`output_sequence` value if present, else its `dpx_sequence` value if
present, else keeps its old binding; `proxy_file` is propagated
verbatim; the whole payload is stored under `{stage name}_output`; and
no other context key changes.  An empty payload leaves the context
untouched.  The last conjunct ties the contract to the orchestrator
loop: each non-stopped `pipelineStep` updates its context exactly by
`updatePipelineData`. -/
theorem pipeline_context_remap (ctx : Dict) (stageName : String) (data : Dict) :
    (data ≠ [] →
      dictGet (updatePipelineData ctx stageName data) "input_sequence"
        = (match dictGet data "output_sequence" with
           | some v => some v
           | none => match dictGet data "dpx_sequence" with
             | some v => some v
             | none => dictGet ctx "input_sequence") ∧
      dictGet (updatePipelineData ctx stageName data) "proxy_file"
        = (match dictGet data "proxy_file" with
           | some v => some v
           | none => dictGet ctx "proxy_file") ∧
      dictGet (updatePipelineData ctx stageName data) (stageName ++ "_output")
        = some (Val.dict data) ∧
      (∀ k : String, k ≠ "input_sequence" → k ≠ "proxy_file" →
        k ≠ stageName ++ "_output" →
        dictGet (updatePipelineData ctx stageName data) k = dictGet ctx k)) ∧
    (data = [] → updatePipelineData ctx stageName data = ctx) ∧
    (∀ (stop_on_error : Bool) (t : Int × Int) (st : Stage) (s : ExecState),
      s.stopped = false →
      (pipelineStep stop_on_error t st s).ctx
        = updatePipelineData s.ctx st.name (st.executeAt s.shot s.ctx t.1 t.2).2.data) := by
  have h1 : ("input_sequence" : String) ≠ stageName ++ "_output" :=
    Ne.symm (stage_output_key_ne_input stageName)
  have h2 : ("proxy_file" : String) ≠ stageName ++ "_output" :=
    Ne.symm (stage_output_key_ne_proxy stageName)
  have h3 : ("input_sequence" : String) ≠ "proxy_file" := by decide
  have h4 : ("proxy_file" : String) ≠ "input_sequence" := by decide
  refine ⟨?_, ?_, ?_⟩
  · intro hne
    have hempty : data.isEmpty = false := by
      cases data with
      | nil => exact absurd rfl hne
      | cons a l => rfl
    refine ⟨?_, ?_, ?_, ?_⟩
    case _ =>
      rcases hdpx : dictGet data "dpx_sequence" with _ | vd <;>
        rcases hout : dictGet data "output_sequence" with _ | vo <;>
          rcases hpx : dictGet data "proxy_file" with _ | vp <;>
            simp [updatePipelineData, hempty, hdpx, hout, hpx,
              dictGet_set_self, dictGet_set_other, h1, h2, h3, h4]
    case _ =>
      rcases hdpx : dictGet data "dpx_sequence" with _ | vd <;>
        rcases hout : dictGet data "output_sequence" with _ | vo <;>
          rcases hpx : dictGet data "proxy_file" with _ | vp <;>
            simp [updatePipelineData, hempty, hdpx, hout, hpx,
              dictGet_set_self, dictGet_set_other, h1, h2, h3, h4]
    case _ =>
      rcases hdpx : dictGet data "dpx_sequence" with _ | vd <;>
        rcases hout : dictGet data "output_sequence" with _ | vo <;>
          rcases hpx : dictGet data "proxy_file" with _ | vp <;>
            simp [updatePipelineData, hempty, hdpx, hout, hpx, dictGet_set_self]
    case _ =>
      intro k hk1 hk2 hk3
      rcases hdpx : dictGet data "dpx_sequence" with _ | vd <;>
        rcases hout : dictGet data "output_sequence" with _ | vo <;>
          rcases hpx : dictGet data "proxy_file" with _ | vp <;>
            simp [updatePipelineData, hempty, hdpx, hout, hpx,
              dictGet_set_other, hk1, hk2, hk3]
  · intro he
    subst he
    rfl
  · intro stop_on_error t st s hs
    unfold pipelineStep
    rw [hs]
    simp only [Bool.false_eq_true, if_false]
    by_cases hsucc : (st.executeAt s.shot s.ctx t.1 t.2).2.success <;> simp [hsucc]

/-- Witness for `pipeline_context_remap` at a concrete context, stage
name and payload. -/
theorem pipeline_context_remap_witness :
    dictGet (updatePipelineData [("k", Val.str "v")] "stage1"
        [("dpx_sequence", Val.str "seq")]) "input_sequence" = some (Val.str "seq") ∧
    dictGet (updatePipelineData [("k", Val.str "v")] "stage1"
        [("dpx_sequence", Val.str "seq")]) ("stage1" ++ "_output")
      = some (Val.dict [("dpx_sequence", Val.str "seq")]) ∧
    dictGet (updatePipelineData [("k", Val.str "v")] "stage1"
        [("dpx_sequence", Val.str "seq")]) "k" = some (Val.str "v") ∧
    updatePipelineData [("k", Val.str "v")] "stage1" [] = [("k", Val.str "v")] ∧
    (pipelineStep true (0, 0) (producerStage "stage1" "dpx_sequence" (Val.str "seq"))
        { shot := sampleShot, ctx := [("k", Val.str "v")], results := [], stopped := false }).ctx
      = updatePipelineData [("k", Val.str "v")] "stage1"
          ((producerStage "stage1" "dpx_sequence" (Val.str "seq")).executeAt sampleShot
            [("k", Val.str "v")] 0 0).2.data := by
  have h := pipeline_context_remap [("k", Val.str "v")] "stage1" [("dpx_sequence", Val.str "seq")]
  have hne : ([("dpx_sequence", Val.str "seq")] : Dict) ≠ [] := List.cons_ne_nil _ _
  refine ⟨?_, (h.1 hne).2.2.1,
    (h.1 hne).2.2.2 "k" (by decide) (by decide) (by decide), ?_, ?_⟩
  · exact (h.1 hne).1
  · exact (pipeline_context_remap [("k", Val.str "v")] "stage1" []).2.1 rfl
  · exact h.2.2 true (0, 0) _ _ rfl

/-- C5: a conditional-pipeline stage whose registered predicate returns
false is not executed; instead a synthetic successful "skipped" result
is appended, the shot (hence its status) and the stop flag are
unchanged, and the skipped result counts as a success in the summary
totals. -/
theorem conditional_skip_is_success (cp : ConditionalPipeline) (kwargs : Dict)
    (stop_on_error : Bool) (t : Int × Int) (st : Stage) (s : CondState)
    (condition_fn : ShotInfo → List ProcessingResult → Bool)
    (hstop : s.stopped = false)
    (hc : cp.stage_conditions st.name = some condition_fn)
    (hfalse : condition_fn s.shot s.results = false) :
    condStep cp kwargs stop_on_error t st s
      = { shot := s.shot, results := s.results ++ [skippedResult st.name]
          stopped := false } ∧
    (skippedResult st.name).success = true ∧
    (skippedResult st.name).message = "Stage skipped (condition not met)" ∧
    (∀ (name : String) (numStages : Nat) (shotI : ShotInfo) (dur : Int),
      (buildSummary name numStages shotI dur
          (s.results ++ [skippedResult st.name])).successful_stages
        = (buildSummary name numStages shotI dur s.results).successful_stages + 1) := by
  obtain ⟨sh, res, stp⟩ := s
  simp only at hstop hfalse
  subst hstop
  refine ⟨?_, rfl, rfl, ?_⟩
  · unfold condStep
    simp [hc, hfalse]
  · intro name numStages shotI dur
    simp [buildSummary, List.filter_append, skippedResult]

/-- A concrete conditional pipeline whose only stage carries an
always-false predicate. -/
def condFalsePipeline : ConditionalPipeline :=
  { name := "cp", stages := [okStage "A"]
    stage_conditions := fun nm => if nm = "A" then some (fun _ _ => false) else none }

/-- Witness for `conditional_skip_is_success` on `condFalsePipeline`. -/
theorem conditional_skip_is_success_witness :
    condStep condFalsePipeline [] true (0, 0) (okStage "A")
        { shot := sampleShot, results := [], stopped := false }
      = { shot := sampleShot, results := [skippedResult "A"], stopped := false } ∧
    (skippedResult "A").success = true ∧
    (skippedResult "A").message = "Stage skipped (condition not met)" ∧
    (∀ (name : String) (numStages : Nat) (shotI : ShotInfo) (dur : Int),
      (buildSummary name numStages shotI dur [skippedResult "A"]).successful_stages
        = (buildSummary name numStages shotI dur []).successful_stages + 1) :=
  conditional_skip_is_success condFalsePipeline [] true (0, 0) (okStage "A")
    { shot := sampleShot, results := [], stopped := false }
    (fun _ _ => false) rfl rfl rfl

/-- C10: `ConditionalPipeline.execute` performs no inter-stage data
propagation.  With a producer stage followed by a probe stage that
records the context it receives: under `Pipeline.execute` the probe sees
the initial kwargs extended with `input_sequence` and `stage1_output`,
while under a condition-free `ConditionalPipeline.execute` over the very
same stages it sees exactly the initial kwargs — so the two
orchestrators are not equivalent once a stage's behaviour depends on
propagated context. -/
theorem conditional_no_context_propagation :
    ((Pipeline.mk "p" [producerStage "stage1" "dpx_sequence" (Val.str "seq"),
        probeStage "stage2"]).execute sampleShot true [("k", Val.str "v")]
        (fun _ => (0, 0)) 0 0).2.2.map (fun r => r.data)
      = [[("dpx_sequence", Val.str "seq")],
         [("k", Val.str "v"), ("input_sequence", Val.str "seq"),
          ("stage1_output", Val.dict [("dpx_sequence", Val.str "seq")])]] ∧
    ((ConditionalPipeline.mk "cp" [producerStage "stage1" "dpx_sequence" (Val.str "seq"),
        probeStage "stage2"] (fun _ => none)).execute sampleShot true [("k", Val.str "v")]
        (fun _ => (0, 0)) 0 0).2.2.map (fun r => r.data)
      = [[("dpx_sequence", Val.str "seq")], [("k", Val.str "v")]] :=
  ⟨rfl, rfl⟩

/-- A stage's process body leaves `processing_status` unchanged: the
status field is orchestration state, written only by the orchestrator. -/
def preservesStatus (st : Stage) : Prop :=
  ∀ (shot : ShotInfo) (r : ProcessingResult) (ctx : Dict),
    ((st.process shot r ctx).shot).processing_status = shot.processing_status

/-- The executor returns the shot with its status unchanged when the
process body preserves it. -/
theorem executeAt_shot_status (st : Stage) (hst : preservesStatus st)
    (shot : ShotInfo) (ctx : Dict) (t0 t1 : Int) :
    (st.executeAt shot ctx t0 t1).1.processing_status = shot.processing_status :=
  hst shot (initResult st.name) ctx

/-- A stopped pipeline loop state is left untouched. -/
theorem pipelineStep_stopped (so : Bool) (t : Int × Int) (st : Stage)
    (s : ExecState) (h : s.stopped = true) :
    pipelineStep so t st s = s := by
  unfold pipelineStep
  simp [h]

/-- Unfolding of a non-stopped pipeline step. -/
theorem pipelineStep_not_stopped (so : Bool) (t : Int × Int) (st : Stage)
    (s : ExecState) (h : s.stopped = false) :
    pipelineStep so t st s =
      (if (st.executeAt s.shot s.ctx t.1 t.2).2.success then
        { shot := (st.executeAt s.shot s.ctx t.1 t.2).1
          ctx := updatePipelineData s.ctx st.name (st.executeAt s.shot s.ctx t.1 t.2).2.data
          results := s.results ++ [(st.executeAt s.shot s.ctx t.1 t.2).2]
          stopped := false }
      else
        { shot := { (st.executeAt s.shot s.ctx t.1 t.2).1 with processing_status := "error" }
          ctx := updatePipelineData s.ctx st.name (st.executeAt s.shot s.ctx t.1 t.2).2.data
          results := s.results ++ [(st.executeAt s.shot s.ctx t.1 t.2).2]
          stopped := so }) := by
  unfold pipelineStep
  simp [h]

/-- Status/results invariant of the `Pipeline.execute` loop: when every
stage preserves the status, the loop appends some tail of results and
ends with the initial status if all of them succeeded, `"error"`
otherwise. -/
theorem runStages_status_spec (so : Bool) (times : Nat → Int × Int)
    (stages : List Stage) :
    ∀ (i : Nat) (s : ExecState), (∀ st ∈ stages, preservesStatus st) →
      ∃ tail : List ProcessingResult,
        (runStages so times stages i s).results = s.results ++ tail ∧
        (runStages so times stages i s).shot.processing_status
          = (if tail.all (fun r => r.success) then s.shot.processing_status
             else "error") := by
  induction stages with
  | nil =>
      intro i s _
      exact ⟨[], by simp [runStages], by simp [runStages]⟩
  | cons st rest ih =>
      intro i s hpres
      have hst : preservesStatus st := hpres st (List.mem_cons_self st rest)
      have hrest : ∀ st' ∈ rest, preservesStatus st' := fun st' h =>
        hpres st' (List.mem_cons_of_mem st h)
      by_cases hstop : s.stopped = true
      · obtain ⟨tail, ht1, ht2⟩ := ih (i + 1) s hrest
        refine ⟨tail, ?_, ?_⟩
        · show (runStages so times rest (i + 1) (pipelineStep so (times i) st s)).results = _
          rw [pipelineStep_stopped so (times i) st s hstop]
          exact ht1
        · show (runStages so times rest (i + 1)
            (pipelineStep so (times i) st s)).shot.processing_status = _
          rw [pipelineStep_stopped so (times i) st s hstop]
          exact ht2
      · have hstop' : s.stopped = false := by
          cases hv : s.stopped
          · rfl
          · exact absurd hv hstop
        by_cases hsucc : (st.executeAt s.shot s.ctx (times i).1 (times i).2).2.success
        · obtain ⟨tail2, h1, h2⟩ := ih (i + 1)
            { shot := (st.executeAt s.shot s.ctx (times i).1 (times i).2).1
              ctx := updatePipelineData s.ctx st.name
                (st.executeAt s.shot s.ctx (times i).1 (times i).2).2.data
              results := s.results ++ [(st.executeAt s.shot s.ctx (times i).1 (times i).2).2]
              stopped := false } hrest
          refine ⟨(st.executeAt s.shot s.ctx (times i).1 (times i).2).2 :: tail2, ?_, ?_⟩
          · show (runStages so times rest (i + 1) (pipelineStep so (times i) st s)).results = _
            rw [pipelineStep_not_stopped so (times i) st s hstop', if_pos hsucc]
            rw [h1]
            simp
          · show (runStages so times rest (i + 1)
              (pipelineStep so (times i) st s)).shot.processing_status = _
            rw [pipelineStep_not_stopped so (times i) st s hstop', if_pos hsucc]
            rw [h2]
            simp only [List.all_cons, hsucc, Bool.true_and]
            rw [executeAt_shot_status st hst s.shot s.ctx (times i).1 (times i).2]
        · obtain ⟨tail2, h1, h2⟩ := ih (i + 1)
            { shot := { (st.executeAt s.shot s.ctx (times i).1 (times i).2).1 with
                processing_status := "error" }
              ctx := updatePipelineData s.ctx st.name
                (st.executeAt s.shot s.ctx (times i).1 (times i).2).2.data
              results := s.results ++ [(st.executeAt s.shot s.ctx (times i).1 (times i).2).2]
              stopped := so } hrest
          refine ⟨(st.executeAt s.shot s.ctx (times i).1 (times i).2).2 :: tail2, ?_, ?_⟩
          · show (runStages so times rest (i + 1) (pipelineStep so (times i) st s)).results = _
            rw [pipelineStep_not_stopped so (times i) st s hstop', if_neg hsucc]
            rw [h1]
            simp
          · show (runStages so times rest (i + 1)
              (pipelineStep so (times i) st s)).shot.processing_status = _
            rw [pipelineStep_not_stopped so (times i) st s hstop', if_neg hsucc]
            rw [h2]
            have hs : (st.executeAt s.shot s.ctx (times i).1 (times i).2).2.success = false := by
              cases hv : (st.executeAt s.shot s.ctx (times i).1 (times i).2).2.success
              · rfl
              · exact absurd hv hsucc
            simp only [List.all_cons, hs, Bool.false_and, Bool.false_eq_true, if_false]
            rw [ite_self]

/-- A stopped conditional loop state is left untouched. -/
theorem condStep_stopped (cp : ConditionalPipeline) (kwargs : Dict) (so : Bool)
    (t : Int × Int) (st : Stage) (s : CondState) (h : s.stopped = true) :
    condStep cp kwargs so t st s = s := by
  unfold condStep
  simp [h]

/-- Unfolding of a non-stopped conditional step whose predicate (if
any) allows execution. -/
theorem condStep_exec (cp : ConditionalPipeline) (kwargs : Dict) (so : Bool)
    (t : Int × Int) (st : Stage) (s : CondState) (h : s.stopped = false)
    (hrun : cp.stage_conditions st.name = none ∨
      ∃ f, cp.stage_conditions st.name = some f ∧ f s.shot s.results = true) :
    condStep cp kwargs so t st s =
      (if (st.executeAt s.shot kwargs t.1 t.2).2.success then
        { shot := (st.executeAt s.shot kwargs t.1 t.2).1
          results := s.results ++ [(st.executeAt s.shot kwargs t.1 t.2).2]
          stopped := s.stopped }
      else
        { shot := { (st.executeAt s.shot kwargs t.1 t.2).1 with processing_status := "error" }
          results := s.results ++ [(st.executeAt s.shot kwargs t.1 t.2).2]
          stopped := so }) := by
  unfold condStep
  rcases hrun with hnone | ⟨f, hf, htrue⟩
  · simp [h, hnone]
  · simp [h, hf, htrue]

/-- Unfolding of a non-stopped conditional step whose predicate vetoes
execution. -/
theorem condStep_skip (cp : ConditionalPipeline) (kwargs : Dict) (so : Bool)
    (t : Int × Int) (st : Stage) (s : CondState) (h : s.stopped = false)
    (f : ShotInfo → List ProcessingResult → Bool)
    (hf : cp.stage_conditions st.name = some f)
    (hfalse : f s.shot s.results = false) :
    condStep cp kwargs so t st s = { s with results := s.results ++ [skippedResult st.name] } := by
  unfold condStep
  simp [h, hf, hfalse]

/-- Status/results invariant of the `ConditionalPipeline.execute` loop,
the analog of `runStages_status_spec`; skipped stages contribute
successful synthetic results. -/
theorem runCondStages_status_spec (cp : ConditionalPipeline) (kwargs : Dict)
    (so : Bool) (times : Nat → Int × Int) (stages : List Stage) :
    ∀ (i : Nat) (s : CondState), (∀ st ∈ stages, preservesStatus st) →
      ∃ tail : List ProcessingResult,
        (runCondStages cp kwargs so times stages i s).results = s.results ++ tail ∧
        (runCondStages cp kwargs so times stages i s).shot.processing_status
          = (if tail.all (fun r => r.success) then s.shot.processing_status
             else "error") := by
  induction stages with
  | nil =>
      intro i s _
      exact ⟨[], by simp [runCondStages], by simp [runCondStages]⟩
  | cons st rest ih =>
      intro i s hpres
      have hst : preservesStatus st := hpres st (List.mem_cons_self st rest)
      have hrest : ∀ st' ∈ rest, preservesStatus st' := fun st' h =>
        hpres st' (List.mem_cons_of_mem st h)
      by_cases hstop : s.stopped = true
      · obtain ⟨tail, ht1, ht2⟩ := ih (i + 1) s hrest
        refine ⟨tail, ?_, ?_⟩
        · show (runCondStages cp kwargs so times rest (i + 1)
            (condStep cp kwargs so (times i) st s)).results = _
          rw [condStep_stopped cp kwargs so (times i) st s hstop]
          exact ht1
        · show (runCondStages cp kwargs so times rest (i + 1)
            (condStep cp kwargs so (times i) st s)).shot.processing_status = _
          rw [condStep_stopped cp kwargs so (times i) st s hstop]
          exact ht2
      · have hstop' : s.stopped = false := by
          cases hv : s.stopped
          · rfl
          · exact absurd hv hstop
        rcases hcond : cp.stage_conditions st.name with _ | f
        · -- no predicate: the stage executes
          by_cases hsucc : (st.executeAt s.shot kwargs (times i).1 (times i).2).2.success
          · obtain ⟨tail2, h1, h2⟩ := ih (i + 1)
              { shot := (st.executeAt s.shot kwargs (times i).1 (times i).2).1
                results := s.results ++ [(st.executeAt s.shot kwargs (times i).1 (times i).2).2]
                stopped := s.stopped } hrest
            refine ⟨(st.executeAt s.shot kwargs (times i).1 (times i).2).2 :: tail2, ?_, ?_⟩
            · show (runCondStages cp kwargs so times rest (i + 1)
                (condStep cp kwargs so (times i) st s)).results = _
              rw [condStep_exec cp kwargs so (times i) st s hstop' (Or.inl hcond),
                if_pos hsucc]
              rw [h1]
              simp
            · show (runCondStages cp kwargs so times rest (i + 1)
                (condStep cp kwargs so (times i) st s)).shot.processing_status = _
              rw [condStep_exec cp kwargs so (times i) st s hstop' (Or.inl hcond),
                if_pos hsucc]
              rw [h2]
              simp only [List.all_cons, hsucc, Bool.true_and]
              rw [executeAt_shot_status st hst s.shot kwargs (times i).1 (times i).2]
          · obtain ⟨tail2, h1, h2⟩ := ih (i + 1)
              { shot := { (st.executeAt s.shot kwargs (times i).1 (times i).2).1 with
                  processing_status := "error" }
                results := s.results ++ [(st.executeAt s.shot kwargs (times i).1 (times i).2).2]
                stopped := so } hrest
            refine ⟨(st.executeAt s.shot kwargs (times i).1 (times i).2).2 :: tail2, ?_, ?_⟩
            · show (runCondStages cp kwargs so times rest (i + 1)
                (condStep cp kwargs so (times i) st s)).results = _
              rw [condStep_exec cp kwargs so (times i) st s hstop' (Or.inl hcond),
                if_neg hsucc]
              rw [h1]
              simp
            · show (runCondStages cp kwargs so times rest (i + 1)
                (condStep cp kwargs so (times i) st s)).shot.processing_status = _
              rw [condStep_exec cp kwargs so (times i) st s hstop' (Or.inl hcond),
                if_neg hsucc]
              rw [h2]
              have hs : (st.executeAt s.shot kwargs (times i).1 (times i).2).2.success = false := by
                cases hv : (st.executeAt s.shot kwargs (times i).1 (times i).2).2.success
                · rfl
                · exact absurd hv hsucc
              simp only [List.all_cons, hs, Bool.false_and, Bool.false_eq_true, if_false]
              rw [ite_self]
        · -- a predicate is registered
          by_cases hpred : f s.shot s.results = true
          · by_cases hsucc : (st.executeAt s.shot kwargs (times i).1 (times i).2).2.success
            · obtain ⟨tail2, h1, h2⟩ := ih (i + 1)
                { shot := (st.executeAt s.shot kwargs (times i).1 (times i).2).1
                  results := s.results ++ [(st.executeAt s.shot kwargs (times i).1 (times i).2).2]
                  stopped := s.stopped } hrest
              refine ⟨(st.executeAt s.shot kwargs (times i).1 (times i).2).2 :: tail2, ?_, ?_⟩
              · show (runCondStages cp kwargs so times rest (i + 1)
                  (condStep cp kwargs so (times i) st s)).results = _
                rw [condStep_exec cp kwargs so (times i) st s hstop' (Or.inr ⟨f, hcond, hpred⟩),
                  if_pos hsucc]
                rw [h1]
                simp
              · show (runCondStages cp kwargs so times rest (i + 1)
                  (condStep cp kwargs so (times i) st s)).shot.processing_status = _
                rw [condStep_exec cp kwargs so (times i) st s hstop' (Or.inr ⟨f, hcond, hpred⟩),
                  if_pos hsucc]
                rw [h2]
                simp only [List.all_cons, hsucc, Bool.true_and]
                rw [executeAt_shot_status st hst s.shot kwargs (times i).1 (times i).2]
            · obtain ⟨tail2, h1, h2⟩ := ih (i + 1)
                { shot := { (st.executeAt s.shot kwargs (times i).1 (times i).2).1 with
                    processing_status := "error" }
                  results := s.results ++ [(st.executeAt s.shot kwargs (times i).1 (times i).2).2]
                  stopped := so } hrest
              refine ⟨(st.executeAt s.shot kwargs (times i).1 (times i).2).2 :: tail2, ?_, ?_⟩
              · show (runCondStages cp kwargs so times rest (i + 1)
                  (condStep cp kwargs so (times i) st s)).results = _
                rw [condStep_exec cp kwargs so (times i) st s hstop' (Or.inr ⟨f, hcond, hpred⟩),
                  if_neg hsucc]
                rw [h1]
                simp
              · show (runCondStages cp kwargs so times rest (i + 1)
                  (condStep cp kwargs so (times i) st s)).shot.processing_status = _
                rw [condStep_exec cp kwargs so (times i) st s hstop' (Or.inr ⟨f, hcond, hpred⟩),
                  if_neg hsucc]
                rw [h2]
                have hs : (st.executeAt s.shot kwargs (times i).1 (times i).2).2.success = false := by
                  cases hv : (st.executeAt s.shot kwargs (times i).1 (times i).2).2.success
                  · rfl
                  · exact absurd hv hsucc
                simp only [List.all_cons, hs, Bool.false_and, Bool.false_eq_true, if_false]
                rw [ite_self]
          · -- predicate vetoes: skipped, a successful synthetic result
            have hpf : f s.shot s.results = false := by
              cases hv : f s.shot s.results
              · rfl
              · exact absurd hv hpred
            obtain ⟨tail2, h1, h2⟩ := ih (i + 1)
              { s with results := s.results ++ [skippedResult st.name] } hrest
            refine ⟨skippedResult st.name :: tail2, ?_, ?_⟩
            · show (runCondStages cp kwargs so times rest (i + 1)
                (condStep cp kwargs so (times i) st s)).results = _
              rw [condStep_skip cp kwargs so (times i) st s hstop' f hcond hpf]
              rw [h1]
              simp
            · show (runCondStages cp kwargs so times rest (i + 1)
                (condStep cp kwargs so (times i) st s)).shot.processing_status = _
              rw [condStep_skip cp kwargs so (times i) st s hstop' f hcond hpf]
              rw [h2]
              simp [skippedResult]

/-- Final shot status of `Pipeline.execute`: `"complete"` exactly when
every recorded result succeeded, `"error"` otherwise (stages assumed not
to write the status themselves). -/
theorem pipeline_final_status (p : Pipeline) (shot : ShotInfo) (so : Bool)
    (kwargs : Dict) (times : Nat → Int × Int) (t0 t1 : Int)
    (hp : ∀ st ∈ p.stages, preservesStatus st) :
    (p.execute shot so kwargs times t0 t1).2.1.processing_status
      = (if (p.execute shot so kwargs times t0 t1).2.2.all (fun r => r.success)
         then "complete" else "error") := by
  obtain ⟨tail, h1, h2⟩ := runStages_status_spec so times p.stages 0
    { shot := { shot with processing_status := "processing" }, ctx := kwargs
      results := [], stopped := false } hp
  by_cases hall : tail.all (fun r => r.success) = true
  · have hstat : (runStages so times p.stages 0
        { shot := { shot with processing_status := "processing" }, ctx := kwargs
          results := [], stopped := false }).shot.processing_status = "processing" := by
      rw [h2, if_pos hall]
    simp [Pipeline.execute, hstat, h1, hall]
  · have hstat : (runStages so times p.stages 0
        { shot := { shot with processing_status := "processing" }, ctx := kwargs
          results := [], stopped := false }).shot.processing_status = "error" := by
      rw [h2, if_neg hall]
    simp [Pipeline.execute, hstat, h1, hall]

/-- Final shot status of `ConditionalPipeline.execute`, as in
`pipeline_final_status`. -/
theorem conditional_final_status (cp : ConditionalPipeline) (shot : ShotInfo)
    (so : Bool) (kwargs : Dict) (times : Nat → Int × Int) (t0 t1 : Int)
    (hp : ∀ st ∈ cp.stages, preservesStatus st) :
    (cp.execute shot so kwargs times t0 t1).2.1.processing_status
      = (if (cp.execute shot so kwargs times t0 t1).2.2.all (fun r => r.success)
         then "complete" else "error") := by
  obtain ⟨tail, h1, h2⟩ := runCondStages_status_spec cp kwargs so times cp.stages 0
    { shot := { shot with processing_status := "processing" }
      results := [], stopped := false } hp
  by_cases hall : tail.all (fun r => r.success) = true
  · have hstat : (runCondStages cp kwargs so times cp.stages 0
        { shot := { shot with processing_status := "processing" }
          results := [], stopped := false }).shot.processing_status = "processing" := by
      rw [h2, if_pos hall]
    simp [ConditionalPipeline.execute, hstat, h1, hall]
  · have hstat : (runCondStages cp kwargs so times cp.stages 0
        { shot := { shot with processing_status := "processing" }
          results := [], stopped := false }).shot.processing_status = "error" := by
      rw [h2, if_neg hall]
    simp [ConditionalPipeline.execute, hstat, h1, hall]

/-- C3 counterexample: `Pipeline.execute` unconditionally resets the
shot status to `"processing"`, so a shot already in `"error"` is
reverted by a subsequent invocation and can end `"complete"` — the
cross-invocation no-revert property of the claim fails. -/
theorem status_reverts_on_rerun_counterexample :
    ({ sampleShot with processing_status := "error" } : ShotInfo).processing_status
      = "error" ∧
    ((Pipeline.mk "p" [okStage "A"]).execute
        { sampleShot with processing_status := "error" }
        true [] (fun _ => (0, 0)) 0 0).2.1.processing_status = "complete" :=
  ⟨rfl, rfl⟩

/-- C3 (amended): within a single `Pipeline.execute` or
`ConditionalPipeline.execute` run whose stages do not themselves write
`processing_status`, the status ends `"complete"` iff every recorded
result succeeded and `"error"` iff some result failed; and `"error"` is
absorbing for the rest of the run's stage loop.  (Across invocations the
no-revert property fails, see the counterexample.) -/
theorem status_lifecycle_within_run (p : Pipeline) (cp : ConditionalPipeline)
    (shot shot2 : ShotInfo) (so so2 : Bool) (kwargs kwargs2 : Dict)
    (times times2 : Nat → Int × Int) (t0 t1 u0 u1 : Int)
    (hp : ∀ st ∈ p.stages, preservesStatus st)
    (hcp : ∀ st ∈ cp.stages, preservesStatus st) :
    ((p.execute shot so kwargs times t0 t1).2.1.processing_status = "complete"
      ↔ (p.execute shot so kwargs times t0 t1).2.2.all (fun r => r.success) = true) ∧
    ((p.execute shot so kwargs times t0 t1).2.1.processing_status = "error"
      ↔ ¬ (p.execute shot so kwargs times t0 t1).2.2.all (fun r => r.success) = true) ∧
    (∀ s : ExecState, s.shot.processing_status = "error" →
      (runStages so times p.stages 0 s).shot.processing_status = "error") ∧
    ((cp.execute shot2 so2 kwargs2 times2 u0 u1).2.1.processing_status = "complete"
      ↔ (cp.execute shot2 so2 kwargs2 times2 u0 u1).2.2.all (fun r => r.success) = true) ∧
    ((cp.execute shot2 so2 kwargs2 times2 u0 u1).2.1.processing_status = "error"
      ↔ ¬ (cp.execute shot2 so2 kwargs2 times2 u0 u1).2.2.all (fun r => r.success) = true) ∧
    (∀ s : CondState, s.shot.processing_status = "error" →
      (runCondStages cp kwargs2 so2 times2 cp.stages 0 s).shot.processing_status
        = "error") := by
  have hps := pipeline_final_status p shot so kwargs times t0 t1 hp
  have hcs := conditional_final_status cp shot2 so2 kwargs2 times2 u0 u1 hcp
  refine ⟨?_, ?_, ?_, ?_, ?_, ?_⟩
  · rw [hps]
    by_cases hall : (p.execute shot so kwargs times t0 t1).2.2.all
        (fun r => r.success) = true
    · simp [hall]
    · simp [hall]
  · rw [hps]
    by_cases hall : (p.execute shot so kwargs times t0 t1).2.2.all
        (fun r => r.success) = true
    · simp [hall]
    · simp [hall]
  · intro s hs
    obtain ⟨tail, -, h2⟩ := runStages_status_spec so times p.stages 0 s hp
    rw [h2, hs, ite_self]
  · rw [hcs]
    by_cases hall : (cp.execute shot2 so2 kwargs2 times2 u0 u1).2.2.all
        (fun r => r.success) = true
    · simp [hall]
    · simp [hall]
  · rw [hcs]
    by_cases hall : (cp.execute shot2 so2 kwargs2 times2 u0 u1).2.2.all
        (fun r => r.success) = true
    · simp [hall]
    · simp [hall]
  · intro s hs
    obtain ⟨tail, -, h2⟩ := runCondStages_status_spec cp kwargs2 so2 times2 cp.stages 0 s hcp
    rw [h2, hs, ite_self]

/-- Witness for `status_lifecycle_within_run` on a concrete two-stage
pipeline and the concrete conditional pipeline. -/
theorem status_lifecycle_within_run_witness :
    (((Pipeline.mk "p" [okStage "A", failStage "B"]).execute sampleShot true []
          (fun _ => (0, 0)) 0 0).2.1.processing_status = "complete"
      ↔ ((Pipeline.mk "p" [okStage "A", failStage "B"]).execute sampleShot true []
          (fun _ => (0, 0)) 0 0).2.2.all (fun r => r.success) = true) ∧
    (((Pipeline.mk "p" [okStage "A", failStage "B"]).execute sampleShot true []
          (fun _ => (0, 0)) 0 0).2.1.processing_status = "error"
      ↔ ¬ ((Pipeline.mk "p" [okStage "A", failStage "B"]).execute sampleShot true []
          (fun _ => (0, 0)) 0 0).2.2.all (fun r => r.success) = true) ∧
    (∀ s : ExecState, s.shot.processing_status = "error" →
      (runStages true (fun _ => (0, 0)) (Pipeline.mk "p" [okStage "A", failStage "B"]).stages
          0 s).shot.processing_status = "error") ∧
    ((condFalsePipeline.execute sampleShot true [] (fun _ => (0, 0)) 0 0).2.1.processing_status
        = "complete"
      ↔ (condFalsePipeline.execute sampleShot true [] (fun _ => (0, 0)) 0 0).2.2.all
          (fun r => r.success) = true) ∧
    ((condFalsePipeline.execute sampleShot true [] (fun _ => (0, 0)) 0 0).2.1.processing_status
        = "error"
      ↔ ¬ (condFalsePipeline.execute sampleShot true [] (fun _ => (0, 0)) 0 0).2.2.all
          (fun r => r.success) = true) ∧
    (∀ s : CondState, s.shot.processing_status = "error" →
      (runCondStages condFalsePipeline [] true (fun _ => (0, 0)) condFalsePipeline.stages
          0 s).shot.processing_status = "error") :=
  status_lifecycle_within_run (Pipeline.mk "p" [okStage "A", failStage "B"])
    condFalsePipeline sampleShot sampleShot true true [] []
    (fun _ => (0, 0)) (fun _ => (0, 0)) 0 0 0 0
    (by
      intro st hst
      simp only [List.mem_cons, List.mem_singleton, List.not_mem_nil, or_false] at hst
      rcases hst with h | h <;>
        · subst h
          intro shot r ctx
          rfl)
    (by
      intro st hst
      simp only [condFalsePipeline, List.mem_singleton, List.not_mem_nil,
        List.mem_cons, or_false] at hst
      subst hst
      intro shot r ctx
      rfl)

/-- The collecting fold of `verify_exists` is a filter. -/
theorem foldl_collect_eq_filter {α : Type} (p : α → Bool) :
    ∀ (l acc : List α),
      l.foldl (fun acc x => if p x then acc ++ [x] else acc) acc = acc ++ l.filter p
  | [], acc => by simp
  | x :: xs, acc => by
      by_cases hx : p x
      · simp [List.foldl_cons, hx, foldl_collect_eq_filter p xs, List.filter_cons]
      · simp [List.foldl_cons, hx, foldl_collect_eq_filter p xs, List.filter_cons]

/-- Filtering with an everywhere-false predicate gives the empty list. -/
theorem filter_of_none {α : Type} (p : α → Bool) :
    ∀ l : List α, (∀ x ∈ l, p x = false) → l.filter p = []
  | [], _ => rfl
  | x :: xs, h => by
      have hx : p x = false := h x (List.mem_cons_self x xs)
      simp [List.filter_cons, hx,
        filter_of_none p xs (fun y hy => h y (List.mem_cons_of_mem x hy))]

/-- Filtering with an everywhere-true predicate keeps the whole list. -/
theorem filter_of_all {α : Type} (p : α → Bool) :
    ∀ l : List α, (∀ x ∈ l, p x = true) → l.filter p = l
  | [], _ => rfl
  | x :: xs, h => by
      have hx : p x = true := h x (List.mem_cons_self x xs)
      simp [List.filter_cons, hx,
        filter_of_all p xs (fun y hy => h y (List.mem_cons_of_mem x hy))]

/-- Membership in a block of consecutive integers. -/
theorem mem_frameRangeAux (n : Nat) :
    ∀ (a f : Int), f ∈ frameRangeAux a n ↔ a ≤ f ∧ f < a + n := by
  induction n with
  | zero =>
      intro a f
      simp only [frameRangeAux, List.not_mem_nil, false_iff]
      omega
  | succ m ih =>
      intro a f
      simp only [frameRangeAux, List.mem_cons, ih (a + 1) f]
      omega

/-- Membership in the declared frame range. -/
theorem mem_frameRange (a b f : Int) : f ∈ frameRange a b ↔ a ≤ f ∧ f ≤ b := by
  unfold frameRange
  rw [mem_frameRangeAux]
  omega

/-- A block of consecutive integers is strictly increasing. -/
theorem pairwise_frameRangeAux (n : Nat) :
    ∀ a : Int, (frameRangeAux a n).Pairwise (· < ·) := by
  induction n with
  | zero =>
      intro a
      simp [frameRangeAux]
  | succ m ih =>
      intro a
      simp only [frameRangeAux, List.pairwise_cons]
      refine ⟨?_, ih (a + 1)⟩
      intro x hx
      have hm := (mem_frameRangeAux m (a + 1) x).mp hx
      omega

/-- The frame range is strictly increasing. -/
theorem pairwise_frameRange (a b : Int) : (frameRange a b).Pairwise (· < ·) := by
  unfold frameRange
  exact pairwise_frameRangeAux _ a

/-- Model of `verify_exists` as a filter over the frame range. -/
theorem verify_exists_eq_filter (s : ImageSequence) (fs : String → Bool) :
    s.verify_exists fs
      = (frameRange s.first_frame s.last_frame).filter
          (fun f => fs (s.get_frame_path f)) := by
  unfold ImageSequence.verify_exists
  rw [foldl_collect_eq_filter]
  simp

/-- C9: `verify_exists` returns exactly the frames of
`[first_frame, last_frame]` whose derived path exists, in strictly
increasing order; with no existing frame it returns `[]`, and with every
frame existing it returns the full range. -/
theorem verify_exists_spec (s : ImageSequence) (fs : String → Bool) :
    (∀ f : Int, f ∈ s.verify_exists fs ↔
      s.first_frame ≤ f ∧ f ≤ s.last_frame ∧ fs (s.get_frame_path f) = true) ∧
    (s.verify_exists fs).Pairwise (· < ·) ∧
    ((∀ f : Int, s.first_frame ≤ f → f ≤ s.last_frame →
        fs (s.get_frame_path f) = false) → s.verify_exists fs = []) ∧
    ((∀ f : Int, s.first_frame ≤ f → f ≤ s.last_frame →
        fs (s.get_frame_path f) = true) →
      s.verify_exists fs = frameRange s.first_frame s.last_frame) := by
  refine ⟨?_, ?_, ?_, ?_⟩
  · intro f
    rw [verify_exists_eq_filter]
    simp only [List.mem_filter, mem_frameRange]
    tauto
  · rw [verify_exists_eq_filter]
    exact (pairwise_frameRange _ _).sublist (List.filter_sublist _)
  · intro hnone
    rw [verify_exists_eq_filter]
    exact filter_of_none _ _ (fun f hf => by
      obtain ⟨h1, h2⟩ := (mem_frameRange _ _ f).mp hf
      exact hnone f h1 h2)
  · intro hall
    rw [verify_exists_eq_filter]
    exact filter_of_all _ _ (fun f hf => by
      obtain ⟨h1, h2⟩ := (mem_frameRange _ _ f).mp hf
      exact hall f h1 h2)

/-- A concrete three-frame image sequence. -/
def sampleSeq : ImageSequence :=
  { directory := "/mnt/projects/sht100", base_name := "img", extension := "exr"
    first_frame := 1, last_frame := 3, frame_padding := 4 }

/-- Witness for `verify_exists_spec` on a concrete sequence against the
full and the empty filesystem. -/
theorem verify_exists_spec_witness :
    sampleSeq.verify_exists (fun _ => true)
      = frameRange sampleSeq.first_frame sampleSeq.last_frame ∧
    sampleSeq.verify_exists (fun _ => false) = [] ∧
    (2 ∈ sampleSeq.verify_exists (fun _ => true) ↔
      sampleSeq.first_frame ≤ 2 ∧ 2 ≤ sampleSeq.last_frame ∧
        (fun _ => true) (sampleSeq.get_frame_path 2) = true) :=
  ⟨(verify_exists_spec sampleSeq (fun _ => true)).2.2.2 (fun _ _ _ => rfl),
   (verify_exists_spec sampleSeq (fun _ => false)).2.2.1 (fun _ _ _ => rfl),
   (verify_exists_spec sampleSeq (fun _ => true)).1 2⟩

end DedPipe
